import Mathlib

/-!
Verification of the core of the API mock-server generator:

* `DataGenerator` (packages/core/src/openapi-parser.ts): schema-driven
  fake-data generation with `$ref` resolution, cycle tracking via a
  `visiting` set, `oneOf`/`anyOf`/`allOf` composition and per-type
  generators.
* `TemplateEngine` (packages/core): the `{{name:args}}` placeholder
  interpolation engine over arbitrary JSON-like trees.

JavaScript runtime values are modelled by the `Json` inductive below
(numbers as exact rationals).  The external faker library is modelled by
an oracle (`Faker`): a family of streams of draws, threaded through the
generators by an explicit call counter; a ranged draw such as
`faker.number.int({min, max})` is modelled by clamping an arbitrary
oracle value into the requested range, which mirrors faker's contract
that the produced value lies inside `[min, max]` while quantifying over
every possible outcome.

The recursive generator is total only thanks to cycle protection, which
the source implements with the mutable `visiting` set; the embedding
makes every recursion fuel-indexed, with `none` meaning "does not
terminate within the given fuel".  Theorems either hold for every fuel
or take the result `some _` as hypothesis, so no statement depends on a
particular fuel bound.
-/

/-- A JSON-like JavaScript runtime value: `null`, booleans, numbers
(exact rationals), strings, arrays and objects (ordered key/value
lists, as JS objects preserve insertion order). -/
inductive Json where
  | null : Json
  | bool (b : Bool) : Json
  | num (q : ℚ) : Json
  | str (s : String) : Json
  | arr (elems : List Json) : Json
  | obj (members : List (String × Json)) : Json

mutual

/-- Structural equality test for `Json` (the nested inductive prevents
deriving it). -/
def Json.beq : Json → Json → Bool
  | .null, .null => true
  | .bool a, .bool b => decide (a = b)
  | .num a, .num b => decide (a = b)
  | .str a, .str b => decide (a = b)
  | .arr a, .arr b => Json.beqList a b
  | .obj a, .obj b => Json.beqKVs a b
  | _, _ => false

/-- Elementwise `Json.beq` on arrays. -/
def Json.beqList : List Json → List Json → Bool
  | [], [] => true
  | a :: as, b :: bs => Json.beq a b && Json.beqList as bs
  | _, _ => false

/-- Elementwise `Json.beq` on object member lists. -/
def Json.beqKVs : List (String × Json) → List (String × Json) → Bool
  | [], [] => true
  | (k, v) :: as, (k2, v2) :: bs =>
      decide (k = k2) && Json.beq v v2 && Json.beqKVs as bs
  | _, _ => false

end

/-- Structural induction for `Json`, with element access for the nested
lists (used throughout; Lean does not generate a usable recursor for the
nested inductive automatically). -/
def Json.indOn {P : Json → Prop}
    (hnull : P .null) (hbool : ∀ b, P (.bool b)) (hnum : ∀ q, P (.num q))
    (hstr : ∀ s, P (.str s))
    (harr : ∀ l, (∀ x ∈ l, P x) → P (.arr l))
    (hobj : ∀ kvs, (∀ kv ∈ kvs, P kv.2) → P (.obj kvs)) :
    ∀ j : Json, P j
  | .null => hnull
  | .bool b => hbool b
  | .num q => hnum q
  | .str s => hstr s
  | .arr l => harr l (fun x _hx2 =>
      Json.indOn hnull hbool hnum hstr harr hobj x)
  | .obj kvs => hobj kvs (fun kv _hkv2 =>
      Json.indOn hnull hbool hnum hstr harr hobj kv.2)
termination_by j => sizeOf j
decreasing_by
  · have h := List.sizeOf_lt_of_mem _hx2
    simp only [Json.arr.sizeOf_spec]
    omega
  · have h := List.sizeOf_lt_of_mem _hkv2
    have h2 : sizeOf kv.2 < sizeOf kv := by
      obtain ⟨k, v⟩ := kv
      simp only [Prod.mk.sizeOf_spec]
      omega
    simp only [Json.obj.sizeOf_spec]
    omega

theorem Json.beq_iff : ∀ a b : Json, (Json.beq a b = true) ↔ a = b := by
  intro a
  induction a using Json.indOn with
  | hnull => intro b; cases b <;> simp [Json.beq]
  | hbool x => intro b; cases b <;> simp [Json.beq]
  | hnum x => intro b; cases b <;> simp [Json.beq]
  | hstr x => intro b; cases b <;> simp [Json.beq]
  | harr l ih =>
      intro b
      cases b <;> simp only [Json.beq, Json.arr.injEq] <;> try simp
      rename_i l2
      induction l generalizing l2 with
      | nil => cases l2 <;> simp [Json.beqList]
      | cons x xs ihx =>
          cases l2 with
          | nil => simp [Json.beqList]
          | cons y ys =>
              simp only [Json.beqList, Bool.and_eq_true,
                ih x (List.mem_cons_self x xs), List.cons.injEq]
              constructor
              · rintro ⟨h1, h2⟩
                exact ⟨h1, ((ihx (fun z hz => ih z (List.mem_cons_of_mem x hz)) ys).mp h2)⟩
              · rintro ⟨h1, h2⟩
                exact ⟨h1, ((ihx (fun z hz => ih z (List.mem_cons_of_mem x hz)) ys).mpr h2)⟩
  | hobj kvs ih =>
      intro b
      cases b <;> simp only [Json.beq, Json.obj.injEq] <;> try simp
      rename_i kvs2
      induction kvs generalizing kvs2 with
      | nil => cases kvs2 <;> simp [Json.beqKVs]
      | cons kv rest ihx =>
          cases kvs2 with
          | nil => obtain ⟨k, v⟩ := kv; simp [Json.beqKVs]
          | cons kv2 rest2 =>
              obtain ⟨k, v⟩ := kv
              obtain ⟨k2, v2⟩ := kv2
              simp only [Json.beqKVs, Bool.and_eq_true, decide_eq_true_eq,
                List.cons.injEq, Prod.mk.injEq,
                ih (k, v) (List.mem_cons_self (k, v) rest)]
              constructor
              · rintro ⟨⟨h1, h2⟩, h3⟩
                exact ⟨⟨h1, h2⟩,
                  (ihx (fun z hz => ih z (List.mem_cons_of_mem (k, v) hz)) rest2).mp h3⟩
              · rintro ⟨⟨h1, h2⟩, h3⟩
                exact ⟨⟨h1, h2⟩,
                  (ihx (fun z hz => ih z (List.mem_cons_of_mem (k, v) hz)) rest2).mpr h3⟩

instance : DecidableEq Json := fun a b =>
  decidable_of_iff (Json.beq a b = true) (Json.beq_iff a b)

/-- First binding of a key in an object's member list (JS objects have
unique keys; member lists built by the embedding preserve that). -/
def lookupKey : List (String × Json) → String → Option Json
  | [], _ => none
  | (k, v) :: rest, key => if k = key then some v else lookupKey rest key

/-- Whether a key occurs in a member list. -/
def hasKey (l : List (String × Json)) (key : String) : Bool :=
  (lookupKey l key).isSome

/-- JS property assignment `o[key] = v`: update the existing binding in
place, else append the new binding at the end. -/
def setKey : List (String × Json) → String → Json → List (String × Json)
  | [], key, v => [(key, v)]
  | (k, w) :: rest, key, v =>
      if k = key then (k, v) :: rest else (k, w) :: setKey rest key v

/-- JS object spread `{ ...a, ...b }`: a's keys in order with b's value
winning on shared keys, then b's remaining keys in b's order. -/
def spreadKVs (a b : List (String × Json)) : List (String × Json) :=
  (a.map (fun kv => (kv.1, (lookupKey b kv.1).getD kv.2)))
    ++ b.filter (fun kv => !hasKey a kv.1)

/-- Property access `j[key]` (`undefined`, i.e. `none`, off objects). -/
def getKey (j : Json) (key : String) : Option Json :=
  match j with
  | .obj kvs => lookupKey kvs key
  | _ => none

/-- JS truthiness of a JSON value. -/
def jsTruthy : Json → Bool
  | .null => false
  | .bool b => b
  | .num q => if q = 0 then false else true
  | .str s => if s = "" then false else true
  | .arr _ => true
  | .obj _ => true

/-- The `schema.key` access as used in truthiness guards: the value when
present and truthy, otherwise `none`. -/
def truthyKey (j : Json) (key : String) : Option Json :=
  match getKey j key with
  | some v => if jsTruthy v then some v else none
  | none => none

/-- View an optional value as an object member list (the `{ ...x }` and
`Object.entries(x)` consumers; non-objects contribute no members). -/
def asObjList : Option Json → List (String × Json)
  | some (.obj kvs) => kvs
  | _ => []

/-- View an optional value as an array (non-arrays contribute nothing). -/
def asArrList : Option Json → List Json
  | some (.arr l) => l
  | _ => []

/-- JS `x || d` where the result is consumed as a number: the numeric
value when present and non-zero (`0` is falsy!), else the default. -/
def numOr (j : Option Json) (d : ℚ) : ℚ :=
  match j with
  | some (.num q) => if q = 0 then d else q
  | _ => d

/-- JS `x !== undefined ? x : d` consumed as a number: presence check,
so an explicit `0` is honored. -/
def numIfPresent (j : Option Json) (d : ℚ) : ℚ :=
  match j with
  | some (.num q) => q
  | _ => d

/-- Model of `Set.prototype.add`: no-op when the element is already present. -/
def setAdd (vis : List String) (r : String) : List String :=
  if r ∈ vis then vis else r :: vis

/-- Model of `[...new Set(l)]`: dedupe keeping first occurrences, in order. -/
def jsSetDedup (l : List Json) : List Json :=
  l.foldl (fun acc x => if x ∈ acc then acc else acc ++ [x]) []

/-- Oracle for the external faker library: streams of independent draws,
indexed by an explicit call counter threaded through the generators. -/
structure Faker where
  ints : Nat → Int
  rats : Nat → ℚ
  bools : Nat → Bool
  strs : Nat → String

/-- A fixed, everywhere-zero oracle, used to evaluate the generators on
concrete inputs. -/
def fk0 : Faker := ⟨fun _ => 0, fun _ => 0, fun _ => false, fun _ => ""⟩

/-- Model of `faker.number.int({min, max})`: an integer inside `[min, max]`
(faker's contract, which requires `min ≤ max`), modelled by clamping an
arbitrary oracle draw into the range. -/
def intDraw (z : Int) (lo hi : ℚ) : Int :=
  max ⌈lo⌉ (min ⌊hi⌋ z)

/-- Model of `faker.number.float({min, max})`: a number inside `[min, max]`,
modelled by clamping an arbitrary oracle draw. -/
def ratDraw (q : ℚ) (lo hi : ℚ) : ℚ :=
  max lo (min hi q)

/-- Model of `faker.helpers.arrayElement`: an index below the list's length. -/
def pickIdx (z : Int) (n : Nat) : Nat := z.natAbs % n

/-- Split a character list on a separator character, keeping empty
segments (the semantics of JS `String.prototype.split` with a one-char
separator). -/
def splitChar (sep : Char) : List Char → List (List Char)
  | [] => [[]]
  | c :: rest =>
      let r := splitChar sep rest
      if c = sep then [] :: r
      else
        match r with
        | h :: t => (c :: h) :: t
        | [] => [[c]]

/-- The stepwise document walk of `resolveRef`: follow each path segment
by exact key lookup (`part in current` on objects; arrays answer to
their canonical index strings), failing on anything non-traversable. -/
def walkDoc : Json → List String → Option Json
  | cur, [] => some cur
  | cur, p :: ps =>
      match cur with
      | .obj kvs =>
          match lookupKey kvs p with
          | some v => walkDoc v ps
          | none => none
      | .arr l =>
          match p.toNat? with
          | some i => if p = toString i then
              match l[i]? with
              | some v => walkDoc v ps
              | none => none
            else none
          | none => none
      | _ => none

/-- Model of `DataGenerator.resolveRef`.  Fuel bounds the transitive `$ref`
hops, with `none` marking exhaustion (the source has no such bound, so
every theorem quantifies over the fuel).  The inner `Option Json` is the
source's `schema`-or-`null` result; the returned list is the final
state of the mutable `visiting` set, which the source threads through
the call by reference.  A present-but-non-string `$ref` on the walked
node makes the recursive call throw inside its `try` block, which the
source catches into a `null` result with the set restored. -/
def resolveRef (spc : Json) : Nat → String → List String → Option (Option Json × List String)
  | 0, _, _ => none
  | fuel + 1, ref, vis =>
      if ref ∈ vis then some (none, vis)
      else if jsTruthy spc = false then some (none, vis)
      else
        let vis1 := setAdd vis ref
        let cleanChars := match ref.data with
          | '#' :: r => r
          | r => r
        let parts := ((splitChar '/' cleanChars).map String.mk).filter (fun p => p ≠ "")
        match walkDoc spc parts with
        | none => some (none, vis1.erase ref)
        | some cur =>
            match truthyKey cur "$ref" with
            | some (.str r2) =>
                match resolveRef spc fuel r2 vis1 with
                | none => none
                | some (res, vis2) => some (res, vis2.erase ref)
            | some _ => some (none, vis1.erase ref)
            | none => some (some cur, vis1.erase ref)

/-- One iteration of the merge loop in `DataGenerator.mergeSchemas`,
transcribed statement by statement: union `properties`, union
`required`, then the full object spread `{ ...merged, ...current }`
(which overwrites `properties`/`required` with the current member's
values when it has them), then the post-spread re-merge of
`properties`/`required` against the already-overwritten state. -/
def mergeStep (merged : List (String × Json)) (cur : Json) : List (String × Json) :=
  let m1 := match truthyKey cur "properties" with
    | some p => setKey merged "properties"
        (.obj (spreadKVs (asObjList (lookupKey merged "properties")) (asObjList (some p))))
    | none => merged
  let m2 := match truthyKey cur "required" with
    | some r => setKey m1 "required"
        (.arr (jsSetDedup (asArrList (lookupKey m1 "required") ++ asArrList (some r))))
    | none => m1
  let m3 := spreadKVs m2 (asObjList (some cur))
  let m4 := match truthyKey (.obj m3) "properties", truthyKey cur "properties" with
    | some mp, some cp => setKey m3 "properties"
        (.obj (spreadKVs (asObjList (some mp)) (asObjList (some cp))))
    | _, _ => m3
  match truthyKey cur "required" with
  | some r => setKey m4 "required"
      (.arr (jsSetDedup (asArrList (lookupKey m4 "required") ++ asArrList (some r))))
  | none => m4

/-- Model of `DataGenerator.mergeSchemas`: the empty list gives `{}`, a single
schema is returned as is, otherwise fold the merge loop over a spread
copy of the first schema. -/
def mergeSchemas : List Json → Json
  | [] => .obj []
  | [s] => s
  | s0 :: rest => .obj (rest.foldl mergeStep (asObjList (some s0)))

/-- The member pre-resolution of the `allOf` branch:
`schema.allOf.map(s => s.$ref ? this.resolveRef(s.$ref, visitedRefs) || s : s)`,
threading the `visiting` set left to right.  A truthy non-string `$ref`
makes `resolveRef` fail soft (caught throw), falling back to the member
itself; a falsy resolution also falls back to the member (`|| s`). -/
def resolveAllOfMembers (spc : Json) (fuel : Nat) :
    List Json → List String → Option (List Json × List String)
  | [], vis => some ([], vis)
  | s :: rest, vis =>
      match truthyKey s "$ref" with
      | some (.str r) =>
          (match resolveRef spc fuel r vis with
           | none => none
           | some (res, vis1) =>
               let s1 := match res with
                 | some rv => if jsTruthy rv then rv else s
                 | none => s
               match resolveAllOfMembers spc fuel rest vis1 with
               | none => none
               | some (rest1, vis2) => some (s1 :: rest1, vis2))
      | some _ =>
          (match resolveAllOfMembers spc fuel rest vis with
           | none => none
           | some (rest1, vis2) => some (s :: rest1, vis2))
      | none =>
          match resolveAllOfMembers spc fuel rest vis with
          | none => none
          | some (rest1, vis2) => some (s :: rest1, vis2)

/-- The `schema.oneOf && schema.oneOf.length > 0` guard family: the
key's value when it is a non-empty array. -/
def nonEmptyArrKey (s : Json) (key : String) : Option (List Json) :=
  match getKey s key with
  | some (.arr (x :: xs)) => some (x :: xs)
  | _ => none

/-- Model of `DataGenerator.inferType`: with or without a recognized `format`,
every branch returns `"string"`. -/
def inferType (s : Json) : String :=
  match truthyKey s "format" with
  | some (.str f) =>
      if f = "uuid" ∨ f = "email" ∨ f = "date-time" ∨ f = "date" ∨ f = "uri" ∨ f = "url"
      then "string" else "string"
  | _ => "string"

/-- Model of `schema.type || this.inferType(schema)`: the value the type switch
dispatches on (a truthy non-string `type` matches no case). -/
def typeValue (s : Json) : Json :=
  match getKey s "type" with
  | some v => if jsTruthy v then v else .str (inferType s)
  | none => .str (inferType s)

/-- Whether the switch on the dispatched type value reaches a labelled
case (including `case 'null'`); anything else falls to `default`. -/
def isRecognizedType (j : Json) : Bool :=
  match j with
  | .str t => t ∈ ["string", "number", "integer", "boolean", "array", "object", "null"]
  | _ => false

/-- The `format` values with a dedicated semantic string generator. -/
def stringFormats : List String :=
  ["uuid", "uuid4", "email", "date-time", "datetime", "date", "uri", "url",
   "hostname", "ipv4", "ipv6", "password"]

/-- Whether `switch (format)` hits a semantic case (a non-string format
value matches none). -/
def isSemanticFormat (v : Json) : Bool :=
  match v with
  | .str f => f ∈ stringFormats
  | _ => false

/-- Model of `DataGenerator.generateString`.  An `enum` pick returns the chosen
enum entry as is (whatever its type); a semantic format produces a
string from the external faker generator (one oracle draw); the default
branch draws a length in `[minLength || 1, maxLength || 50]` and then an
alphanumeric string (two draws). -/
def generateString (fk : Faker) (s : Json) (ctr : Nat) : Json × Nat :=
  let format := match truthyKey s "format" with
    | some v => v
    | none => .str ""
  match nonEmptyArrKey s "enum" with
  | some l => (l.getD (pickIdx (fk.ints ctr) l.length) .null, ctr + 1)
  | none =>
      if isSemanticFormat format then (.str (fk.strs ctr), ctr + 1)
      else
        let minLength := numOr (getKey s "minLength") 1
        let maxLength := numOr (getKey s "maxLength") 50
        let _len := intDraw (fk.ints ctr) minLength maxLength
        (.str (fk.strs (ctr + 1)), ctr + 2)

/-- Model of `DataGenerator.generateNumber`: draw inside
`[minimum ?? 0, maximum ?? 1000]` (presence-checked with
`!== undefined`, so explicit `0` bounds are honored), integer draw when
`type === 'integer'`, then floor-snap to a truthy `multipleOf`.
Returns the numeric value and the advanced counter. -/
def generateNumber (fk : Faker) (s : Json) (ctr : Nat) : ℚ × Nat :=
  let lo := numIfPresent (getKey s "minimum") 0
  let hi := numIfPresent (getKey s "maximum") 1000
  let snap : ℚ → ℚ := fun v =>
    match truthyKey s "multipleOf" with
    | some (.num m) => ⌊v / m⌋ * m
    | _ => v
  if getKey s "type" = some (.str "integer") then
    (snap ((intDraw (fk.ints ctr) lo hi : ℤ) : ℚ), ctr + 1)
  else
    (snap (ratDraw (fk.rats ctr) lo hi), ctr + 1)

/-- Model of `schema.required?.includes(key) || false`. -/
def requiredContains (schema : Json) (key : String) : Bool :=
  match getKey schema "required" with
  | some (.arr l) => (Json.str key) ∈ l
  | _ => false

/-- Model of `schema.items || { type: 'string' }`. -/
def itemsOf (schema : Json) : Json :=
  match truthyKey schema "items" with
  | some it => it
  | none => .obj [("type", .str "string")]

/-- The element loop of `generateArray` (`for i < length`), with the
generator recursion abstracted as `rec`. -/
def generateItems (rec : Json → List String → Nat → Option (Json × Nat))
    (itemsSchema : Json) : Nat → List String → Nat → Option (List Json × Nat)
  | 0, _, ctr => some ([], ctr)
  | m + 1, vis, ctr =>
      match rec itemsSchema vis ctr with
      | none => none
      | some (v, c1) =>
          match generateItems rec itemsSchema m vis c1 with
          | none => none
          | some (rest, c2) => some (v :: rest, c2)

/-- Model of `DataGenerator.generateArray`: length drawn in
`[minItems || 1, maxItems || 5]` (JS `||`, so an explicit `0` falls back
to the default), elements generated from `schema.items || {type:'string'}`
with the same `visiting` set. -/
def generateArray (fk : Faker) (rec : Json → List String → Nat → Option (Json × Nat))
    (schema : Json) (vis : List String) (ctr : Nat) : Option (Json × Nat) :=
  let minItems := numOr (getKey schema "minItems") 1
  let maxItems := numOr (getKey schema "maxItems") 5
  let len := intDraw (fk.ints ctr) minItems maxItems
  match generateItems rec (itemsOf schema) len.toNat vis (ctr + 1) with
  | none => none
  | some (elems, c) => some (.arr elems, c)

/-- The declared-property loop of `generateObject`: a required property
is always generated (the coin is short-circuited away), an optional one
is generated after a true coin flip and skipped after a false one. -/
def generateProps (fk : Faker) (rec : Json → List String → Nat → Option (Json × Nat))
    (schema : Json) : List (String × Json) → List String → Nat → List (String × Json) →
    Option (List (String × Json) × Nat)
  | [], _, ctr, acc => some (acc, ctr)
  | (key, pschema) :: rest, vis, ctr, acc =>
      if requiredContains schema key then
        match rec pschema vis ctr with
        | none => none
        | some (v, c1) => generateProps fk rec schema rest vis c1 (setKey acc key v)
      else
        if fk.bools ctr then
          match rec pschema vis (ctr + 1) with
          | none => none
          | some (v, c1) => generateProps fk rec schema rest vis c1 (setKey acc key v)
        else generateProps fk rec schema rest vis (ctr + 1) acc

/-- The `additionalProperties` loop of `generateObject`: 0–3 synthetic
`additional_<random>` keys, generated from the schema when
`additionalProperties` is an object, from an arbitrarily typed scalar
pick when it is literally `true`, and skipped (the key name is drawn
but nothing is assigned) for any other truthy value. -/
def generateAdditional (fk : Faker) (rec : Json → List String → Nat → Option (Json × Nat))
    (ap : Json) : Nat → List String → Nat → List (String × Json) →
    Option (List (String × Json) × Nat)
  | 0, _, ctr, acc => some (acc, ctr)
  | m + 1, vis, ctr, acc =>
      let key := "additional_" ++ fk.strs ctr
      match ap with
      | .obj _ | .arr _ =>
          (match rec ap vis (ctr + 1) with
           | none => none
           | some (v, c1) =>
               generateAdditional fk rec ap m vis c1 (setKey acc key v))
      | .bool true =>
          let cand : List Json :=
            [.str (fk.strs (ctr + 1)), .num ((fk.ints (ctr + 2) : ℤ) : ℚ),
             .bool (fk.bools (ctr + 3))]
          generateAdditional fk rec ap m vis (ctr + 5)
            (setKey acc key (cand.getD (pickIdx (fk.ints (ctr + 4)) 3) .null))
      | _ => generateAdditional fk rec ap m vis (ctr + 1) acc

/-- Model of `DataGenerator.generateObject`: the declared-property loop followed
by the `additionalProperties` loop. -/
def generateObject (fk : Faker) (rec : Json → List String → Nat → Option (Json × Nat))
    (schema : Json) (vis : List String) (ctr : Nat) : Option (Json × Nat) :=
  let props := asObjList (truthyKey schema "properties")
  match generateProps fk rec schema props vis ctr [] with
  | none => none
  | some (kvs, c1) =>
      match truthyKey schema "additionalProperties" with
      | some ap =>
          let cnt := intDraw (fk.ints c1) 0 3
          (match generateAdditional fk rec ap cnt.toNat vis (c1 + 1) kvs with
           | none => none
           | some (kvs2, c2) => some (.obj kvs2, c2))
      | none => some (.obj kvs, c1)

/-- Model of `DataGenerator.generateFromSchema`.  Fuel-indexed (`none` = no
result within the fuel; the source recursion is unbounded and one unit
of fuel is one recursive generator layer).  The `visiting` set is
threaded exactly where the source passes its mutable set onward; the
generator itself never net-mutates it (`resolveRef` restores it on
every path, proved below), so sibling recursions receive the entry
set. -/
def generateFromSchema (spc : Json) (fk : Faker) :
    Nat → Json → List String → Nat → Option (Json × Nat)
  | 0, _, _, _ => none
  | fuel + 1, schema, vis, ctr =>
      if jsTruthy schema = false then some (.null, ctr)
      else
        match truthyKey schema "$ref" with
        | some (.str r) =>
            (match resolveRef spc fuel r vis with
             | none => none
             | some (res, vis1) =>
                 match res with
                 | some resolved =>
                     if jsTruthy resolved
                     then generateFromSchema spc fk fuel resolved vis1 ctr
                     else some (.obj [], ctr)
                 | none => some (.obj [], ctr))
        | some _ => some (.obj [], ctr)
        | none =>
        match nonEmptyArrKey schema "oneOf" with
        | some l =>
            generateFromSchema spc fk fuel (l.getD (pickIdx (fk.ints ctr) l.length) .null)
              vis (ctr + 1)
        | none =>
        match nonEmptyArrKey schema "anyOf" with
        | some l =>
            generateFromSchema spc fk fuel (l.getD (pickIdx (fk.ints ctr) l.length) .null)
              vis (ctr + 1)
        | none =>
        match nonEmptyArrKey schema "allOf" with
        | some l =>
            (match resolveAllOfMembers spc fuel l vis with
             | none => none
             | some (resolved, vis1) =>
                 generateFromSchema spc fk fuel (mergeSchemas resolved) vis1 ctr)
        | none =>
            match typeValue schema with
            | .str "string" => some (generateString fk schema ctr)
            | .str "number" => (fun p => some (.num p.1, p.2)) (generateNumber fk schema ctr)
            | .str "integer" => (fun p => some (.num p.1, p.2)) (generateNumber fk schema ctr)
            | .str "boolean" => some (.bool (fk.bools ctr), ctr + 1)
            | .str "array" =>
                generateArray fk (fun sc v c => generateFromSchema spc fk fuel sc v c)
                  schema vis ctr
            | .str "object" =>
                generateObject fk (fun sc v c => generateFromSchema spc fk fuel sc v c)
                  schema vis ctr
            | .str "null" => some (.null, ctr)
            | _ => some (.null, ctr)

namespace TemplateEngine

/-- Every case label of the dispatch switch in
`TemplateEngine.processTemplate`, in source order.  The lookup key is
the trimmed, lowercased name before the first `:`. -/
def knownTemplateNames : List String :=
  ["uuid", "date", "datetime", "date-past", "date-future", "date-birthdate",
   "email", "name", "fullname", "firstname", "lastname", "username",
   "nickname", "nick", "password", "url", "ip", "ipv6", "phone", "address",
   "city", "country", "zipcode", "latitude", "longitude", "int", "integer",
   "float", "string", "random", "timestamp", "timestamp-ms", "timestamp-s",
   "creditcard", "credit-card", "cvv", "iban", "bic", "account-number",
   "amount", "price", "currency-code", "currency-name", "currency-symbol",
   "bitcoin-address", "ethereum-address", "product-name",
   "product-description", "product-material", "product-adjective",
   "department", "isbn-10", "isbn-13", "company-name", "company",
   "company-catchphrase", "company-buzzphrase", "word", "words", "sentence",
   "sentences", "paragraph", "paragraphs", "text", "lorem", "image-url",
   "image", "avatar", "color", "color-hex", "color-rgb", "state",
   "state-abbr", "street-name", "building-number", "timezone",
   "country-code", "job-title", "job", "job-type", "bio", "gender", "sex",
   "age", "middle-name", "prefix", "suffix", "domain", "domain-word",
   "user-agent", "mac-address", "port", "animal-type", "animal-dog",
   "animal-cat", "animal-bird", "hacker-phrase", "hacker-verb",
   "hacker-noun", "hacker-adjective", "hacker-abbreviation", "role",
   "permission", "order-id", "order_id", "order-number", "order",
   "invoice-id", "invoice_id", "invoice-number", "transaction-id",
   "transaction_id", "txn-id", "payment-id", "payment_id", "refund-id",
   "refund_id", "ticket-id", "ticket_id", "ticket-number", "booking-id",
   "booking_id", "reservation-id", "reservation_id", "subscription-id",
   "subscription_id", "session-id", "session_id", "token", "api-key",
   "api_key", "secret-key", "secret_key", "access-token", "access_token",
   "refresh-token", "refresh_token", "slug", "url-slug", "hash", "md5-hash",
   "sha256-hash", "status", "order-status", "payment-status", "user-status",
   "version", "semver", "category", "tag", "tags", "rating", "score",
   "percentage", "promo-code", "promocode", "coupon-code", "discount-code",
   "referral-code", "priority", "file-extension", "mime-type",
   "date-recent", "date-soon", "date-month", "date-weekday", "alpha",
   "alphabetic", "numeric", "hex", "base64", "nanoid", "boolean", "bool"]

/-- JS `String.prototype.trim` on a character list. -/
def trimChars (cs : List Char) : List Char :=
  (((cs.dropWhile Char.isWhitespace).reverse).dropWhile Char.isWhitespace).reverse

/-- The dispatch key of a template: `template.split(':')[0].trim().toLowerCase()`. -/
def templateName (template : String) : String :=
  String.mk (((splitChar ':' template.data).headD []).map Char.toLower
    |> trimChars)

/-- Model of `TemplateEngine.processTemplate`: dispatch on the trimmed,
lowercased name.  Every recognized case yields a string from the
external faker library (with its own argument parsing and clamping),
modelled as one oracle draw; the `default` case rebuilds the
placeholder around the received (already trimmed) capture. -/
def processTemplate (fk : Faker) (ctr : Nat) (template : String) : String × Nat :=
  if templateName template ∈ knownTemplateNames then (fk.strs ctr, ctr + 1)
  else ("\x7b\x7b" ++ template ++ "\x7d\x7d", ctr)

/-- The global regex scan `str.replace(/\{\{([^}]+)\}\}/g, ...)` of
`TemplateEngine.processString`: at each `{{`, a non-empty run of
non-`}` characters followed by `}}` is a match, replaced by
`processTemplate` of the trimmed capture, and the scan resumes after
the match; otherwise the scan advances one character.  The fuel only
serves the termination checker: every step consumes at least one
character, so seeding it with the input length (as `processString`
does) reproduces the source exactly; an exhausted budget passes the
rest through. -/
def scanChars (fk : Faker) : Nat → List Char → Nat → List Char × Nat
  | 0, cs, ctr => (cs, ctr)
  | _ + 1, [], ctr => ([], ctr)
  | fuel + 1, '\x7b' :: '\x7b' :: rest, ctr =>
      let capture := rest.takeWhile (fun c => c ≠ '\x7d')
      let after := rest.drop capture.length
      if capture ≠ [] ∧ after.take 2 = ['\x7d', '\x7d'] then
        let p := processTemplate fk ctr (String.mk (trimChars capture))
        let q := scanChars fk fuel (after.drop 2) p.2
        (p.1.data ++ q.1, q.2)
      else
        let q := scanChars fk fuel ('\x7b' :: rest) ctr
        ('\x7b' :: q.1, q.2)
  | fuel + 1, c :: rest, ctr =>
      let q := scanChars fk fuel rest ctr
      (c :: q.1, q.2)

/-- Model of `TemplateEngine.processString`. -/
def processString (fk : Faker) (ctr : Nat) (s : String) : String × Nat :=
  let p := scanChars fk s.data.length s.data ctr
  (String.mk p.1, p.2)

mutual

/-- Model of `TemplateEngine.process`: strings are scanned for placeholders,
objects and arrays are rebuilt recursively, every other value is
returned unchanged. -/
def process (fk : Faker) : Nat → Json → Json × Nat
  | ctr, .str s =>
      let p := processString fk ctr s
      (.str p.1, p.2)
  | ctr, .obj kvs =>
      let p := processObject fk ctr kvs []
      (.obj p.1, p.2)
  | ctr, .arr l =>
      let p := processArray fk ctr l
      (.arr p.1, p.2)
  | ctr, j => (j, ctr)

/-- Model of `TemplateEngine.processObject`: a fresh object, each key processed
as a string (keys may hold placeholders) and each value processed
recursively; assignment goes through the processed key, so colliding
processed keys overwrite. -/
def processObject (fk : Faker) :
    Nat → List (String × Json) → List (String × Json) → List (String × Json) × Nat
  | ctr, [], acc => (acc, ctr)
  | ctr, (k, v) :: rest, acc =>
      let pk := processString fk ctr k
      let pv := process fk pk.2 v
      processObject fk pv.2 rest (setKey acc pk.1 pv.1)

/-- Model of `TemplateEngine.processArray`: elementwise, in order. -/
def processArray (fk : Faker) : Nat → List Json → List Json × Nat
  | ctr, [] => ([], ctr)
  | ctr, x :: rest =>
      let px := process fk ctr x
      let prest := processArray fk px.2 rest
      (px.1 :: prest.1, prest.2)

end

end TemplateEngine

/-! ### Concrete inputs used by the claims -/

/-- Schema `{ type: "string" }`. -/
def strSchema : Json := .obj [("type", .str "string")]

/-- Schema `{ type: "boolean" }`. -/
def boolSchema : Json := .obj [("type", .str "boolean")]

/-- Schema `{ properties: { x: {type:"string"} }, required: ["x"] }`. -/
def exC1A : Json :=
  .obj [("properties", .obj [("x", strSchema)]), ("required", .arr [.str "x"])]

/-- Schema `{ properties: { y: {type:"string"} }, required: ["y"] }`. -/
def exC1B : Json :=
  .obj [("properties", .obj [("y", strSchema)]), ("required", .arr [.str "y"])]

/-- The reference string `#/components/schemas/A`. -/
def cycRef : String := "#/components/schemas/A"

/-- Schema `{ $ref: "#/components/schemas/A" }`. -/
def cycRefSchema : Json := .obj [("$ref", .str cycRef)]

/-- Schema `A`: an object whose required property `self` references `A`
itself — the cyclic example named by the specification. -/
def cycANode : Json := .obj [("type", .str "object"),
  ("properties", .obj [("self", cycRefSchema)]), ("required", .arr [.str "self"])]

/-- A root document containing the self-referential schema `A`. -/
def cycSpec : Json :=
  .obj [("components", .obj [("schemas", .obj [("A", cycANode)])])]

/-- Schema `{ type:"object", properties:{ id:{type:"string"} }, required:["id"] }`. -/
def exIdSchema : Json := .obj [("type", .str "object"),
  ("properties", .obj [("id", strSchema)]), ("required", .arr [.str "id"])]

/-- Schema `{ type:"array", minItems:3, maxItems:3, items:{type:"boolean"} }`. -/
def ex33 : Json := .obj [("type", .str "array"), ("minItems", .num 3),
  ("maxItems", .num 3), ("items", boolSchema)]

/-- Schema `{ type:"array", minItems:0, maxItems:0 }`. -/
def exMin0 : Json :=
  .obj [("type", .str "array"), ("minItems", .num 0), ("maxItems", .num 0)]

/-- Schema `{ type:"integer", minimum:5, maximum:5 }`. -/
def ex55 : Json :=
  .obj [("type", .str "integer"), ("minimum", .num 5), ("maximum", .num 5)]

/-! ### Basic lemmas about the JS-object primitives -/

theorem lookupKey_setKey_self (acc : List (String × Json)) (k : String) (v : Json) :
    lookupKey (setKey acc k v) k = some v := by
  induction acc with
  | nil => simp [setKey, lookupKey]
  | cons kv rest ih =>
      obtain ⟨k2, w⟩ := kv
      by_cases h : k2 = k
      · simp [setKey, h, lookupKey]
      · simp [setKey, h, lookupKey, ih]

theorem lookupKey_setKey_ne (acc : List (String × Json)) (k k2 : String) (v : Json)
    (h : k2 ≠ k) : lookupKey (setKey acc k v) k2 = lookupKey acc k2 := by
  have h2 : ¬ k = k2 := fun hh => h hh.symm
  induction acc with
  | nil => simp [setKey, lookupKey, h2]
  | cons kv rest ih =>
      obtain ⟨k3, w⟩ := kv
      by_cases h3 : k3 = k
      · subst h3
        simp [setKey, lookupKey, h2]
      · simp only [setKey, if_neg h3, lookupKey]
        by_cases h4 : k3 = k2
        · simp [h4]
        · simp [h4, ih]

theorem hasKey_setKey_mono (acc : List (String × Json)) (k k2 : String) (v : Json)
    (h : hasKey acc k2 = true) : hasKey (setKey acc k v) k2 = true := by
  by_cases hk : k2 = k
  · subst hk; simp [hasKey, lookupKey_setKey_self]
  · simpa [hasKey, lookupKey_setKey_ne acc k k2 v hk] using h

theorem hasKey_setKey_self (acc : List (String × Json)) (k : String) (v : Json) :
    hasKey (setKey acc k v) k = true := by
  simp [hasKey, lookupKey_setKey_self]

theorem mem_setKey (acc : List (String × Json)) (k : String) (v : Json)
    (kv : String × Json) (h : kv ∈ setKey acc k v) : kv ∈ acc ∨ kv = (k, v) := by
  induction acc with
  | nil =>
      right
      simpa [setKey] using h
  | cons kv2 rest ih =>
      obtain ⟨k2, w⟩ := kv2
      by_cases h2 : k2 = k
      · simp only [setKey, if_pos h2, List.mem_cons] at h
        rcases h with h | h
        · right; rw [h, h2]
        · left; exact List.mem_cons_of_mem _ h
      · simp only [setKey, if_neg h2, List.mem_cons] at h
        rcases h with h | h
        · left; rw [h]; exact List.mem_cons_self _ _
        · rcases ih h with h3 | h3
          · left; exact List.mem_cons_of_mem _ h3
          · right; exact h3

theorem jsTruthy_of_truthyKey (s : Json) (k : String) (v : Json)
    (h : truthyKey s k = some v) : jsTruthy s = true := by
  cases s <;> first
    | rfl
    | simp [truthyKey, getKey] at h

theorem truthyKey_of_getKey_none (s : Json) (k : String)
    (h : getKey s k = none) : truthyKey s k = none := by
  simp [truthyKey, h]

/-! ### C3: resolveRef restores the visiting set on every path -/

theorem resolveRef_vis_restored :
    ∀ (fuel : Nat) (spc : Json) (ref : String) (vis : List String)
      (res : Option Json) (vis1 : List String),
      resolveRef spc fuel ref vis = some (res, vis1) → vis1 = vis := by
  intro fuel
  induction fuel with
  | zero =>
      intro spc ref vis res vis1 h
      simp [resolveRef] at h
  | succ f ih =>
      intro spc ref vis res vis1 h
      simp only [resolveRef] at h
      split at h
      · simp only [Option.some.injEq, Prod.mk.injEq] at h
        exact h.2.symm
      · split at h
        · simp only [Option.some.injEq, Prod.mk.injEq] at h
          exact h.2.symm
        · rename_i hmem hspc
          have herase : (setAdd vis ref).erase ref = vis := by
            simp [setAdd, hmem, List.erase_cons_head]
          split at h
          · simp only [Option.some.injEq, Prod.mk.injEq] at h
            rw [← h.2, herase]
          · split at h
            · split at h
              · exact absurd h (by simp)
              · rename_i r2 res2vis2 heq
                have hv2 := ih _ _ _ _ _ heq
                simp only [Option.some.injEq, Prod.mk.injEq] at h
                rw [← h.2, hv2, herase]
            · simp only [Option.some.injEq, Prod.mk.injEq] at h
              rw [← h.2, herase]
            · simp only [Option.some.injEq, Prod.mk.injEq] at h
              rw [← h.2, herase]

/-- C3: on every return path of `resolveRef` (success, not-found, error
and transitive resolution) the visiting set handed back equals the one
handed in — the ref added on entry is removed again before returning —
and a ref already in the visiting set yields an absent result with the
set untouched. -/
theorem resolveRef_visiting_frame (spc : Json) (fuel : Nat) (ref : String)
    (vis : List String) (res : Option Json) (vis1 : List String) :
    (resolveRef spc fuel ref vis = some (res, vis1) → vis1 = vis) ∧
    (ref ∈ vis → resolveRef spc (fuel + 1) ref vis = some (none, vis)) := by
  constructor
  · exact resolveRef_vis_restored fuel spc ref vis res vis1
  · intro hmem
    simp [resolveRef, hmem]

/-- Witness for `resolveRef_visiting_frame`: a successful resolution in
the cyclic document hands back the entry set, and a ref already in the
visiting set resolves to the absent result with the set untouched. -/
theorem resolveRef_visiting_frame_witness :
    ([] : List String) = [] ∧
    resolveRef cycSpec 2 cycRef [cycRef] = some (none, [cycRef]) :=
  ⟨(resolveRef_visiting_frame cycSpec 2 cycRef [] (some cycANode) []).1 rfl,
   (resolveRef_visiting_frame cycSpec 1 cycRef [cycRef] none []).2 (by decide)⟩

/-! ### C2: the property-level reference cycle is not broken -/

theorem cyc_ref_unfold (f : Nat) (fk : Faker) (ctr : Nat) :
    generateFromSchema cycSpec fk (f + 1 + 1) cycRefSchema [] ctr
      = generateFromSchema cycSpec fk (f + 1) cycANode [] ctr := rfl

theorem cyc_node_unfold (f : Nat) (fk : Faker) (ctr : Nat)
    (h : generateFromSchema cycSpec fk f cycRefSchema [] ctr = none) :
    generateFromSchema cycSpec fk (f + 1) cycANode [] ctr = none := by
  have e : generateFromSchema cycSpec fk (f + 1) cycANode [] ctr
      = (match (match generateFromSchema cycSpec fk f cycRefSchema [] ctr with
                | none => none
                | some (v, c1) => some (setKey [] "self" v, c1)) with
         | none => none
         | some (kvs, c1) => some (Json.obj kvs, c1)) := rfl
  rw [e, h]

/-- C2: for the root document in which schema `A`'s required property
`self` references `A` itself, generation from `{$ref: "#/…/A"}` never
produces a result at any fuel: `resolveRef` removes the ref from the
visiting set before the generator recurses into the resolved schema, so
every revisit starts from an empty visiting set and the recursion never
terminates (the real process overflows the stack), where the claim says
it terminates with `{}` at the repeated reference. -/
theorem generateFromSchema_cycle_diverges :
    ∀ (fuel : Nat) (fk : Faker) (ctr : Nat),
      generateFromSchema cycSpec fk fuel cycRefSchema [] ctr = none := by
  intro fuel
  induction fuel using Nat.strong_induction_on with
  | _ fuel ih =>
    match fuel with
    | 0 => intro fk ctr; rfl
    | 1 => intro fk ctr; rfl
    | f + 2 =>
        intro fk ctr
        rw [cyc_ref_unfold f fk ctr]
        exact cyc_node_unfold f fk ctr (ih f (by omega) fk ctr)

/-- C1: evaluating `mergeSchemas` on the two members named by the claim,
`{properties:{x}, required:["x"]}` and `{properties:{y}, required:["y"]}`.
The full object spread in the merge loop overwrites the just-computed
`properties`/`required` unions with the later member's own values (the
post-spread "restore" re-merges against the already-overwritten state),
so the merged schema keeps only `y`: the left member's property `x` and
required entry `"x"` are lost, where the claim (and the source's own
comment) say the unions are preserved. -/
theorem mergeSchemas_drops_left_properties :
    mergeSchemas [exC1A, exC1B]
      = .obj [("properties", .obj [("y", strSchema)]), ("required", .arr [.str "y"])] ∧
    lookupKey (asObjList (getKey (mergeSchemas [exC1A, exC1B]) "properties")) "x" = none ∧
    lookupKey (asObjList (getKey (mergeSchemas [exC1A, exC1B]) "properties")) "y"
      = some strSchema :=
  ⟨rfl, rfl, rfl⟩

/-- C4: the fail-soft contract of `generateFromSchema`: a falsy
(absent) schema yields `null`; a `$ref` whose resolution is absent
yields the empty object `{}` (not `null`); a schema that reaches the
type switch with an unrecognized type value yields `null`. -/
theorem generateFromSchema_fails_soft (spc : Json) (fk : Faker) (fuel : Nat)
    (schema : Json) (vis vis1 : List String) (ctr : Nat) (r : String) :
    (jsTruthy schema = false →
      generateFromSchema spc fk (fuel + 1) schema vis ctr = some (.null, ctr)) ∧
    (truthyKey schema "$ref" = some (.str r) →
      resolveRef spc fuel r vis = some (none, vis1) →
      generateFromSchema spc fk (fuel + 1) schema vis ctr = some (.obj [], ctr)) ∧
    (jsTruthy schema = true → truthyKey schema "$ref" = none →
      nonEmptyArrKey schema "oneOf" = none → nonEmptyArrKey schema "anyOf" = none →
      nonEmptyArrKey schema "allOf" = none →
      isRecognizedType (typeValue schema) = false →
      generateFromSchema spc fk (fuel + 1) schema vis ctr = some (.null, ctr)) := by
  refine ⟨fun h => ?_, fun h1 h2 => ?_, fun ht h1 h2 h3 h4 h5 => ?_⟩
  · simp [generateFromSchema, h]
  · have htru : jsTruthy schema = true := jsTruthy_of_truthyKey schema "$ref" (.str r) h1
    simp [generateFromSchema, htru, h1, h2]
  · simp only [generateFromSchema, ht, Bool.true_eq_false, if_false, h1, h2, h3, h4]
    split <;> first
      | rfl
      | (rename_i heq; rw [heq] at h5; simp [isRecognizedType] at h5)

/-- Witness for `generateFromSchema_fails_soft` at concrete inputs: a
`null` schema, a `$ref` that resolves to nothing in an empty document,
and an unrecognized type. -/
theorem generateFromSchema_fails_soft_witness :
    generateFromSchema (.obj []) fk0 2 .null [] 0 = some (.null, 0) ∧
    generateFromSchema (.obj []) fk0 2 (.obj [("$ref", .str "#/nope")]) [] 0
      = some (.obj [], 0) ∧
    generateFromSchema (.obj []) fk0 2 (.obj [("type", .str "frob")]) [] 0
      = some (.null, 0) :=
  ⟨(generateFromSchema_fails_soft (.obj []) fk0 1 .null [] [] 0 "#/nope").1 rfl,
   (generateFromSchema_fails_soft (.obj []) fk0 1 (.obj [("$ref", .str "#/nope")])
      [] [] 0 "#/nope").2.1 rfl rfl,
   (generateFromSchema_fails_soft (.obj []) fk0 1 (.obj [("type", .str "frob")])
      [] [] 0 "#/nope").2.2 rfl rfl rfl rfl rfl rfl⟩

/-! ### C5: required declared properties are always generated -/

theorem generateProps_required_mem (fk : Faker)
    (rec : Json → List String → Nat → Option (Json × Nat)) (schema : Json) :
    ∀ (props : List (String × Json)) (vis : List String) (ctr : Nat)
      (acc : List (String × Json)) (out : List (String × Json) × Nat),
      generateProps fk rec schema props vis ctr acc = some out →
      ∀ k, requiredContains schema k = true →
        (hasKey props k = true ∨ hasKey acc k = true) →
        hasKey out.1 k = true := by
  intro props
  induction props with
  | nil =>
      intro vis ctr acc out h k hreq hmem
      simp only [generateProps, Option.some.injEq] at h
      rcases hmem with hmem | hmem
      · simp [hasKey, lookupKey] at hmem
      · rw [← h]; exact hmem
  | cons kv rest ih =>
      obtain ⟨key, pschema⟩ := kv
      intro vis ctr acc out h k hreq hmem
      by_cases hk : key = k
      · subst hk
        simp only [generateProps, hreq, if_true] at h
        rcases hrec : rec pschema vis ctr with _ | vc1
        · rw [hrec] at h; exact Option.noConfusion h
        · obtain ⟨v, c1⟩ := vc1
          rw [hrec] at h
          exact ih vis c1 (setKey acc key v) out h key hreq
            (Or.inr (hasKey_setKey_self acc key v))
      · have hmem2 : hasKey rest k = true ∨ hasKey acc k = true := by
          rcases hmem with hmem | hmem
          · left; simpa [hasKey, lookupKey, hk] using hmem
          · right; exact hmem
        simp only [generateProps] at h
        by_cases hreqkey : requiredContains schema key
        · rw [if_pos hreqkey] at h
          rcases hrec : rec pschema vis ctr with _ | vc1
          · rw [hrec] at h; exact Option.noConfusion h
          · obtain ⟨v, c1⟩ := vc1
            rw [hrec] at h
            refine ih vis c1 (setKey acc key v) out h k hreq ?_
            rcases hmem2 with hm | hm
            · exact Or.inl hm
            · exact Or.inr (hasKey_setKey_mono acc key k v hm)
        · rw [if_neg hreqkey] at h
          by_cases hcoin : fk.bools ctr = true
          · rw [if_pos hcoin] at h
            rcases hrec : rec pschema vis (ctr + 1) with _ | vc1
            · rw [hrec] at h; exact Option.noConfusion h
            · obtain ⟨v, c1⟩ := vc1
              rw [hrec] at h
              refine ih vis c1 (setKey acc key v) out h k hreq ?_
              rcases hmem2 with hm | hm
              · exact Or.inl hm
              · exact Or.inr (hasKey_setKey_mono acc key k v hm)
          · rw [if_neg hcoin] at h
            exact ih vis (ctr + 1) acc out h k hreq hmem2

theorem generateAdditional_preserves_mem (fk : Faker)
    (rec : Json → List String → Nat → Option (Json × Nat)) (ap : Json) :
    ∀ (n : Nat) (vis : List String) (ctr : Nat) (acc : List (String × Json))
      (out : List (String × Json) × Nat),
      generateAdditional fk rec ap n vis ctr acc = some out →
      ∀ k, hasKey acc k = true → hasKey out.1 k = true := by
  intro n
  induction n with
  | zero =>
      intro vis ctr acc out h k hmem
      simp only [generateAdditional, Option.some.injEq] at h
      rw [← h]; exact hmem
  | succ m ih =>
      intro vis ctr acc out h k hmem
      cases ap with
      | obj members =>
          simp only [generateAdditional] at h
          rcases hrec : rec (.obj members) vis (ctr + 1) with _ | vc1
          · simp only [hrec] at h; exact Option.noConfusion h
          · obtain ⟨v, c1⟩ := vc1
            simp only [hrec] at h
            exact ih vis c1 _ out h k
              (hasKey_setKey_mono acc _ k v hmem)
      | arr elems =>
          simp only [generateAdditional] at h
          rcases hrec : rec (.arr elems) vis (ctr + 1) with _ | vc1
          · simp only [hrec] at h; exact Option.noConfusion h
          · obtain ⟨v, c1⟩ := vc1
            simp only [hrec] at h
            exact ih vis c1 _ out h k
              (hasKey_setKey_mono acc _ k v hmem)
      | bool b =>
          cases b with
          | true =>
              simp only [generateAdditional] at h
              exact ih vis (ctr + 5) _ out h k
                (hasKey_setKey_mono acc _ k _ hmem)
          | false =>
              simp only [generateAdditional] at h
              exact ih vis (ctr + 1) acc out h k hmem
      | null =>
          simp only [generateAdditional] at h
          exact ih vis (ctr + 1) acc out h k hmem
      | num q =>
          simp only [generateAdditional] at h
          exact ih vis (ctr + 1) acc out h k hmem
      | str s =>
          simp only [generateAdditional] at h
          exact ih vis (ctr + 1) acc out h k hmem

/-- C5: every property declared in `properties` and listed in
`required` occurs in the generated object (the loop short-circuits the
inclusion coin for required keys, and the `additionalProperties` loop
only ever adds keys); in particular, for
`{type:"object", properties:{id:{type:"string"}}, required:["id"]}`
every generated value binds `id` to a string. -/
theorem generateObject_required_present :
    (∀ (fk : Faker) (rec : Json → List String → Nat → Option (Json × Nat))
       (schema : Json) (vis : List String) (ctr : Nat) (v : Json) (c : Nat),
       generateObject fk rec schema vis ctr = some (v, c) →
       ∀ k, requiredContains schema k = true →
         hasKey (asObjList (truthyKey schema "properties")) k = true →
         ∃ w, getKey v k = some w) ∧
    (∀ (spc : Json) (fk : Faker) (fuel : Nat) (vis : List String) (v : Json) (c : Nat),
       generateFromSchema spc fk fuel exIdSchema vis 0 = some (v, c) →
       ∃ s, getKey v "id" = some (.str s)) := by
  constructor
  · intro fk rec schema vis ctr v c h k hreq hprop
    simp only [generateObject] at h
    rcases hp : generateProps fk rec schema (asObjList (truthyKey schema "properties"))
        vis ctr [] with _ | kvsc
    · simp only [hp] at h; exact Option.noConfusion h
    · obtain ⟨kvs, c1⟩ := kvsc
      simp only [hp] at h
      have hkvs : hasKey kvs k = true :=
        generateProps_required_mem fk rec schema _ vis ctr [] (kvs, c1) hp k hreq
          (Or.inl hprop)
      rcases hap : truthyKey schema "additionalProperties" with _ | ap
      · simp only [hap, Option.some.injEq, Prod.mk.injEq] at h
        rw [← h.1]
        simpa [getKey, hasKey, Option.isSome_iff_exists] using hkvs
      · simp only [hap] at h
        rcases hadd : generateAdditional fk rec ap
            (intDraw (fk.ints c1) 0 3).toNat vis (c1 + 1) kvs with _ | kvsc2
        · simp only [hadd] at h; exact Option.noConfusion h
        · obtain ⟨kvs2, c2⟩ := kvsc2
          simp only [hadd, Option.some.injEq, Prod.mk.injEq] at h
          rw [← h.1]
          have := generateAdditional_preserves_mem fk rec ap _ vis (c1 + 1) kvs
            (kvs2, c2) hadd k hkvs
          simpa [getKey, hasKey, Option.isSome_iff_exists] using this
  · intro spc fk fuel vis v c h
    rcases fuel with _ | f
    · exact Option.noConfusion h
    rcases f with _ | g
    · have e0 : generateFromSchema spc fk 1 exIdSchema vis 0 = none := rfl
      rw [e0] at h; exact Option.noConfusion h
    · have e : generateFromSchema spc fk (g + 1 + 1) exIdSchema vis 0
          = some (.obj [("id", .str (fk.strs 1))], 2) := rfl
      have h2 := e.symm.trans h
      simp only [Option.some.injEq, Prod.mk.injEq] at h2
      refine ⟨fk.strs 1, ?_⟩
      rw [← h2.1]
      rfl

/-- Witness for `generateObject_required_present` at concrete inputs:
the object path with a trivial recursion, and a full generation from
the `id` example schema. -/
theorem generateObject_required_present_witness :
    (∃ w, getKey (.obj [("id", .null)]) "id" = some w) ∧
    (∃ s, getKey (.obj [("id", .str "")]) "id" = some (.str s)) :=
  ⟨generateObject_required_present.1 fk0 (fun _ _ c => some (.null, c)) exIdSchema [] 0
      (.obj [("id", .null)]) 0 rfl "id" rfl rfl,
   generateObject_required_present.2 .null fk0 10 [] (.obj [("id", .str "")]) 2 rfl⟩

/-! ### C6: array length bounds (JS `||` defaults, not `??`) -/

theorem generateItems_spec (rec : Json → List String → Nat → Option (Json × Nat))
    (items : Json) :
    ∀ (n : Nat) (vis : List String) (ctr : Nat) (l : List Json) (c : Nat),
      generateItems rec items n vis ctr = some (l, c) →
      l.length = n ∧ ∀ x ∈ l, ∃ c1 c2, rec items vis c1 = some (x, c2) := by
  intro n
  induction n with
  | zero =>
      intro vis ctr l c h
      simp only [generateItems, Option.some.injEq, Prod.mk.injEq] at h
      rw [← h.1]
      exact ⟨rfl, by simp⟩
  | succ m ih =>
      intro vis ctr l c h
      simp only [generateItems] at h
      rcases hrec : rec items vis ctr with _ | vc1
      · simp only [hrec] at h; exact Option.noConfusion h
      · obtain ⟨v, c1⟩ := vc1
        simp only [hrec] at h
        rcases hrest : generateItems rec items m vis c1 with _ | rc2
        · simp only [hrest] at h; exact Option.noConfusion h
        · obtain ⟨rest, c2⟩ := rc2
          simp only [hrest, Option.some.injEq, Prod.mk.injEq] at h
          obtain ⟨ihl, ihe⟩ := ih vis c1 rest c2 hrest
          constructor
          · rw [← h.1]; simp [ihl]
          · intro x hx
            rw [← h.1] at hx
            rcases List.mem_cons.mp hx with hx | hx
            · exact ⟨ctr, c1, by rw [hx]; exact hrec⟩
            · exact ihe x hx

theorem intDraw_mem (z : ℤ) (lo hi : ℚ) (h : ⌈lo⌉ ≤ ⌊hi⌋) :
    ⌈lo⌉ ≤ intDraw z lo hi ∧ intDraw z lo hi ≤ ⌊hi⌋ := by
  unfold intDraw
  omega

/-- C6 (amended): the generated array's length lies inside the
effective bounds `[minItems || 1, maxItems || 5]` — JS `||`, so an
explicit `0` bound falls back to the default (the claim's `??` reading
is refuted by the counterexample) — whenever those effective bounds are
sane (`0 ≤ lo` and a nonempty integer range, faker's precondition), and
every element is generated from `schema.items || {type:"string"}`; for
`{type:"array", minItems:3, maxItems:3, items:{type:"boolean"}}` the
result is always exactly three booleans. -/
theorem generateArray_length_bounds :
    (∀ (fk : Faker) (rec : Json → List String → Nat → Option (Json × Nat))
       (schema : Json) (vis : List String) (ctr : Nat) (v : Json) (c : Nat),
       generateArray fk rec schema vis ctr = some (v, c) →
       0 ≤ numOr (getKey schema "minItems") 1 →
       ⌈numOr (getKey schema "minItems") 1⌉ ≤ ⌊numOr (getKey schema "maxItems") 5⌋ →
       ∃ l, v = .arr l ∧
         numOr (getKey schema "minItems") 1 ≤ (l.length : ℚ) ∧
         (l.length : ℚ) ≤ numOr (getKey schema "maxItems") 5 ∧
         ∀ x ∈ l, ∃ c1 c2, rec (itemsOf schema) vis c1 = some (x, c2)) ∧
    (∀ (fk : Faker) (f : Nat) (ctr : Nat),
       generateFromSchema .null fk (f + 2) ex33 [] ctr
         = some (.arr [.bool (fk.bools (ctr + 1)), .bool (fk.bools (ctr + 2)),
             .bool (fk.bools (ctr + 3))], ctr + 4)) := by
  constructor
  · intro fk rec schema vis ctr v c h h0 hle
    set lo := numOr (getKey schema "minItems") 1 with hlo
    set hi := numOr (getKey schema "maxItems") 5 with hhi
    simp only [generateArray, ← hlo, ← hhi] at h
    rcases hitems : generateItems rec (itemsOf schema)
        (intDraw (fk.ints ctr) lo hi).toNat vis (ctr + 1) with _ | ec
    · simp only [hitems] at h; exact Option.noConfusion h
    · obtain ⟨elems, c2⟩ := ec
      simp only [hitems, Option.some.injEq, Prod.mk.injEq] at h
      obtain ⟨hlen, helems⟩ :=
        generateItems_spec rec (itemsOf schema) _ vis (ctr + 1) elems c2 hitems
      have hm := intDraw_mem (fk.ints ctr) lo hi hle
      have hnn : (0 : ℤ) ≤ ⌈lo⌉ := Int.ceil_nonneg h0
      have hlen2 : (elems.length : ℤ) = intDraw (fk.ints ctr) lo hi := by
        rw [hlen]
        exact Int.toNat_of_nonneg (le_trans hnn hm.1)
      refine ⟨elems, h.1.symm, ?_, ?_, helems⟩
      · have h1 : (⌈lo⌉ : ℤ) ≤ (elems.length : ℤ) := hlen2 ▸ hm.1
        calc lo ≤ (⌈lo⌉ : ℚ) := Int.le_ceil lo
          _ ≤ ((elems.length : ℤ) : ℚ) := by exact_mod_cast h1
          _ = (elems.length : ℚ) := by push_cast; ring
      · have h2 : (elems.length : ℤ) ≤ ⌊hi⌋ := hlen2 ▸ hm.2
        calc (elems.length : ℚ) = ((elems.length : ℤ) : ℚ) := by push_cast; ring
          _ ≤ (⌊hi⌋ : ℚ) := by exact_mod_cast h2
          _ ≤ hi := Int.floor_le hi
  · intro fk f ctr
    have hlen : (intDraw (fk.ints ctr) (numOr (getKey ex33 "minItems") 1)
        (numOr (getKey ex33 "maxItems") 5)).toNat = 3 := by
      have h1 : numOr (getKey ex33 "minItems") 1 = 3 := rfl
      have h2 : numOr (getKey ex33 "maxItems") 5 = 3 := rfl
      rw [h1, h2]
      unfold intDraw
      have hc : ⌈(3 : ℚ)⌉ = 3 := by norm_num
      have hf : ⌊(3 : ℚ)⌋ = 3 := by norm_num
      rw [hc, hf]
      omega
    have e : generateFromSchema .null fk (f + 1 + 1) ex33 [] ctr
        = generateArray fk (fun sc v2 c2 => generateFromSchema .null fk (f + 1) sc v2 c2)
            ex33 [] ctr := rfl
    rw [show f + 2 = f + 1 + 1 from rfl, e]
    simp only [generateArray]
    rw [hlen]
    rfl

/-- Counterexample for C6 as frozen: in `{type:"array", minItems:0,
maxItems:0}` the explicit `0` bounds are falsy, so the source falls
back to the `[1, 5]` defaults and generates a non-empty array, where
the claim says `minItems:0`/`maxItems:0` are honored and force length
`0`. -/
theorem generateArray_zero_bounds_counterexample :
    getKey exMin0 "minItems" = some (.num 0) ∧
    getKey exMin0 "maxItems" = some (.num 0) ∧
    generateFromSchema .null fk0 10 exMin0 [] 0 = some (.arr [.str ""], 3) ∧
    ([Json.str ""].length : ℚ) ≠ 0 :=
  ⟨rfl, rfl, rfl, by norm_num⟩

/-- Witness for `generateArray_length_bounds`: the bounds conclusion
instantiated on a concrete one-element generation, and the concrete
three-boolean conjunct at fuel 2. -/
theorem generateArray_length_bounds_witness :
    (∃ l, Json.arr [Json.null] = .arr l ∧
       numOr (getKey (Json.obj [("minItems", .num 1), ("maxItems", .num 1)]) "minItems") 1
         ≤ (l.length : ℚ) ∧
       (l.length : ℚ) ≤
         numOr (getKey (Json.obj [("minItems", .num 1), ("maxItems", .num 1)]) "maxItems") 5 ∧
       ∀ x ∈ l, ∃ c1 c2,
         (fun (_ : Json) (_ : List String) (c : Nat) => some (Json.null, c))
           (itemsOf (Json.obj [("minItems", .num 1), ("maxItems", .num 1)])) [] c1
           = some (x, c2)) ∧
    generateFromSchema .null fk0 2 ex33 [] 0
      = some (.arr [.bool false, .bool false, .bool false], 4) :=
  ⟨generateArray_length_bounds.1 fk0 (fun _ _ c => some (.null, c))
      (Json.obj [("minItems", .num 1), ("maxItems", .num 1)]) [] 0 (.arr [.null]) 1
      rfl (by decide) (by decide),
   generateArray_length_bounds.2 fk0 0 0⟩

/-! ### C7: numeric generation stays inside the requested bounds -/

/-- C7: with no `multipleOf` keyword, `generateNumber` produces a value
inside `[minimum ?? 0, maximum ?? 1000]` (presence-checked defaults, so
explicit `0` bounds are honored): an integer draw when
`type === 'integer'` (under faker's precondition that the integer range
is nonempty), a clamped float draw otherwise; for
`{type:"integer", minimum:5, maximum:5}` the value is always exactly
`5`. -/
theorem generateNumber_range :
    (∀ (fk : Faker) (s : Json) (ctr : Nat),
       getKey s "multipleOf" = none →
       getKey s "type" = some (.str "integer") →
       ⌈numIfPresent (getKey s "minimum") 0⌉ ≤ ⌊numIfPresent (getKey s "maximum") 1000⌋ →
       numIfPresent (getKey s "minimum") 0 ≤ (generateNumber fk s ctr).1 ∧
       (generateNumber fk s ctr).1 ≤ numIfPresent (getKey s "maximum") 1000 ∧
       ∃ n : ℤ, (generateNumber fk s ctr).1 = (n : ℚ)) ∧
    (∀ (fk : Faker) (s : Json) (ctr : Nat),
       getKey s "multipleOf" = none →
       getKey s "type" ≠ some (.str "integer") →
       numIfPresent (getKey s "minimum") 0 ≤ numIfPresent (getKey s "maximum") 1000 →
       numIfPresent (getKey s "minimum") 0 ≤ (generateNumber fk s ctr).1 ∧
       (generateNumber fk s ctr).1 ≤ numIfPresent (getKey s "maximum") 1000) ∧
    (∀ (fk : Faker) (ctr : Nat), (generateNumber fk ex55 ctr).1 = 5) := by
  refine ⟨fun fk s ctr hm ht hle => ?_, fun fk s ctr hm ht hle => ?_, fun fk ctr => ?_⟩
  · have hmt := truthyKey_of_getKey_none s "multipleOf" hm
    set lo := numIfPresent (getKey s "minimum") 0 with hlo
    set hi := numIfPresent (getKey s "maximum") 1000 with hhi
    simp only [generateNumber, hmt, ht, if_pos, ← hlo, ← hhi]
    have hm2 := intDraw_mem (fk.ints ctr) lo hi hle
    refine ⟨?_, ?_, ⟨intDraw (fk.ints ctr) lo hi, rfl⟩⟩
    · calc lo ≤ (⌈lo⌉ : ℚ) := Int.le_ceil lo
        _ ≤ ((intDraw (fk.ints ctr) lo hi : ℤ) : ℚ) := by exact_mod_cast hm2.1
    · calc ((intDraw (fk.ints ctr) lo hi : ℤ) : ℚ) ≤ (⌊hi⌋ : ℚ) := by exact_mod_cast hm2.2
        _ ≤ hi := Int.floor_le hi
  · have hmt := truthyKey_of_getKey_none s "multipleOf" hm
    set lo := numIfPresent (getKey s "minimum") 0 with hlo
    set hi := numIfPresent (getKey s "maximum") 1000 with hhi
    simp only [generateNumber, hmt, if_neg ht, ← hlo, ← hhi]
    unfold ratDraw
    exact ⟨le_max_left lo _, max_le hle (min_le_left hi _)⟩
  · have h5 : intDraw (fk.ints ctr) (5 : ℚ) 5 = 5 := by
      unfold intDraw
      have hc : ⌈(5 : ℚ)⌉ = 5 := by norm_num
      have hf : ⌊(5 : ℚ)⌋ = 5 := by norm_num
      rw [hc, hf]
      omega
    have e : (generateNumber fk ex55 ctr).1
        = ((intDraw (fk.ints ctr) (5 : ℚ) 5 : ℤ) : ℚ) := rfl
    rw [e, h5]
    norm_num

/-- Witness for `generateNumber_range`: the integer case at the `5 ≤ x ≤ 5`
example, the float case at a bare number schema, and the exact-5 value. -/
theorem generateNumber_range_witness :
    (numIfPresent (getKey ex55 "minimum") 0 ≤ (generateNumber fk0 ex55 0).1 ∧
      (generateNumber fk0 ex55 0).1 ≤ numIfPresent (getKey ex55 "maximum") 1000 ∧
      ∃ n : ℤ, (generateNumber fk0 ex55 0).1 = (n : ℚ)) ∧
    (numIfPresent (getKey (Json.obj [("type", .str "number")]) "minimum") 0
        ≤ (generateNumber fk0 (Json.obj [("type", .str "number")]) 0).1 ∧
      (generateNumber fk0 (Json.obj [("type", .str "number")]) 0).1
        ≤ numIfPresent (getKey (Json.obj [("type", .str "number")]) "maximum") 1000) ∧
    (generateNumber fk0 ex55 0).1 = 5 :=
  ⟨generateNumber_range.1 fk0 ex55 0 rfl rfl (by decide),
   generateNumber_range.2.1 fk0 (Json.obj [("type", .str "number")]) 0 rfl
     (by decide) (by decide),
   generateNumber_range.2.2 fk0 0⟩

/-! ### C8: unknown template names fall through -/

/-- Counterexample for C8 as frozen: the replacement callback trims the
capture before dispatch, and the `default` branch rebuilds the
placeholder from that trimmed capture, so a placeholder with inner
whitespace is not returned verbatim: `"{{ unknown-template-xyz }}"`
comes back as `"{{unknown-template-xyz}}"`. -/
theorem process_unknown_not_verbatim :
    (TemplateEngine.process fk0 0 (.str "\x7b\x7b unknown-template-xyz \x7d\x7d")).1
      = .str "\x7b\x7bunknown-template-xyz\x7d\x7d" ∧
    (TemplateEngine.process fk0 0 (.str "\x7b\x7b unknown-template-xyz \x7d\x7d")).1
      ≠ .str "\x7b\x7b unknown-template-xyz \x7d\x7d" :=
  ⟨rfl, by decide⟩

/-- C8 (amended): a placeholder whose trimmed, lowercased name is not a
key of the template catalog is substituted by `"{{" ++ capture.trim ++ "}}"`
— the original placeholder with the capture's surrounding whitespace
stripped, hence verbatim exactly when the capture carries no
surrounding whitespace; in particular
`process("{{unknown-template-xyz}}")` returns the input unchanged. -/
theorem processTemplate_unknown_fallthrough :
    (∀ (fk : Faker) (ctr : Nat) (t : String),
       TemplateEngine.templateName t ∉ TemplateEngine.knownTemplateNames →
       TemplateEngine.processTemplate fk ctr t = ("\x7b\x7b" ++ t ++ "\x7d\x7d", ctr)) ∧
    (∀ (fk : Faker) (ctr : Nat),
       TemplateEngine.process fk ctr (.str "\x7b\x7bunknown-template-xyz\x7d\x7d")
         = (.str "\x7b\x7bunknown-template-xyz\x7d\x7d", ctr)) := by
  constructor
  · intro fk ctr t h
    simp [TemplateEngine.processTemplate, h]
  · intro fk ctr
    rfl

/-- Witness for `processTemplate_unknown_fallthrough` at the concrete
unknown name. -/
theorem processTemplate_unknown_fallthrough_witness :
    TemplateEngine.processTemplate fk0 0 "unknown-template-xyz"
      = ("\x7b\x7bunknown-template-xyz\x7d\x7d", 0) ∧
    TemplateEngine.process fk0 0 (.str "\x7b\x7bunknown-template-xyz\x7d\x7d")
      = (.str "\x7b\x7bunknown-template-xyz\x7d\x7d", 0) :=
  ⟨processTemplate_unknown_fallthrough.1 fk0 0 "unknown-template-xyz" (by decide),
   processTemplate_unknown_fallthrough.2 fk0 0⟩

/-! ### C9: process is structure-preserving -/

mutual

/-- Structure preservation between an input tree and a processed tree:
scalars (`null`, booleans, numbers) unchanged, strings mapped to
strings, arrays mapped elementwise in order (hence same length), and
mappings rebuilt from processed members. -/
inductive TemplateEngine.SameShape (fk : Faker) : Json → Json → Prop where
  | null : TemplateEngine.SameShape fk .null .null
  | bool (b : Bool) : TemplateEngine.SameShape fk (.bool b) (.bool b)
  | num (q : ℚ) : TemplateEngine.SameShape fk (.num q) (.num q)
  | str (s t : String) : TemplateEngine.SameShape fk (.str s) (.str t)
  | arr (l lp : List Json) :
      TemplateEngine.SameShapeList fk l lp →
      TemplateEngine.SameShape fk (.arr l) (.arr lp)
  | obj (kvs kvsp : List (String × Json)) :
      TemplateEngine.SameShapeMembers fk kvs kvsp →
      TemplateEngine.SameShape fk (.obj kvs) (.obj kvsp)

/-- Elementwise structure preservation for sequences: same length,
order preserved. -/
inductive TemplateEngine.SameShapeList (fk : Faker) : List Json → List Json → Prop where
  | nil : TemplateEngine.SameShapeList fk [] []
  | cons (x y : Json) (xs ys : List Json) :
      TemplateEngine.SameShape fk x y →
      TemplateEngine.SameShapeList fk xs ys →
      TemplateEngine.SameShapeList fk (x :: xs) (y :: ys)

/-- Every member of the output mapping originates from some input
member: its key is a `processString` image of the input key and its
value is a processed image of the input value. -/
inductive TemplateEngine.SameShapeMembers (fk : Faker) :
    List (String × Json) → List (String × Json) → Prop where
  | nil (kvs : List (String × Json)) : TemplateEngine.SameShapeMembers fk kvs []
  | cons (kvs : List (String × Json)) (kv2 : String × Json)
      (rest : List (String × Json)) :
      TemplateEngine.MemberFrom fk kvs kv2 →
      TemplateEngine.SameShapeMembers fk kvs rest →
      TemplateEngine.SameShapeMembers fk kvs (kv2 :: rest)

/-- A single output member's provenance from an input member list. -/
inductive TemplateEngine.MemberFrom (fk : Faker) :
    List (String × Json) → (String × Json) → Prop where
  | intro (kvs : List (String × Json)) (kv : String × Json) (key2 : String)
      (v2 : Json) (c : Nat) :
      kv ∈ kvs →
      key2 = (TemplateEngine.processString fk c kv.1).1 →
      TemplateEngine.SameShape fk kv.2 v2 →
      TemplateEngine.MemberFrom fk kvs (key2, v2)

end

theorem TemplateEngine.processArray_sameShapeList (fk : Faker) :
    ∀ (l : List Json) (ctr : Nat),
      (∀ x ∈ l, ∀ c, TemplateEngine.SameShape fk x (TemplateEngine.process fk c x).1) →
      TemplateEngine.SameShapeList fk l (TemplateEngine.processArray fk ctr l).1 := by
  intro l
  induction l with
  | nil =>
      intro ctr hl
      simp only [TemplateEngine.processArray]
      exact TemplateEngine.SameShapeList.nil
  | cons x rest ih =>
      intro ctr hl
      simp only [TemplateEngine.processArray]
      exact TemplateEngine.SameShapeList.cons _ _ _ _
        (hl x (List.mem_cons_self x rest) ctr)
        (ih _ (fun y hy c => hl y (List.mem_cons_of_mem x hy) c))

theorem TemplateEngine.processObject_provenance (fk : Faker) :
    ∀ (kvs : List (String × Json)) (ctr : Nat) (acc : List (String × Json)),
      (∀ kv ∈ kvs, ∀ c, TemplateEngine.SameShape fk kv.2 (TemplateEngine.process fk c kv.2).1) →
      ∀ kv2 ∈ (TemplateEngine.processObject fk ctr kvs acc).1,
        kv2 ∈ acc ∨ TemplateEngine.MemberFrom fk kvs kv2 := by
  intro kvs
  induction kvs with
  | nil =>
      intro ctr acc hl kv2 hmem
      simp only [TemplateEngine.processObject] at hmem
      exact Or.inl hmem
  | cons kv rest ih =>
      obtain ⟨k, v⟩ := kv
      intro ctr acc hl kv2 hmem
      simp only [TemplateEngine.processObject] at hmem
      rcases ih _ _ (fun y hy c => hl y (List.mem_cons_of_mem (k, v) hy) c) kv2 hmem
        with hacc | hfrom
      · rcases mem_setKey _ _ _ kv2 hacc with hacc2 | heq
        · exact Or.inl hacc2
        · subst heq
          refine Or.inr (TemplateEngine.MemberFrom.intro _ (k, v) _ _ ctr
            (List.mem_cons_self (k, v) rest) rfl ?_)
          exact hl (k, v) (List.mem_cons_self (k, v) rest)
            (TemplateEngine.processString fk ctr k).2
      · rcases hfrom with ⟨_, kv3, key2, v2, c, hmem3, hkey, hval⟩
        exact Or.inr (TemplateEngine.MemberFrom.intro _ kv3 _ _ c
          (List.mem_cons_of_mem (k, v) hmem3) hkey hval)

theorem TemplateEngine.membersFrom_of_forall (fk : Faker)
    (kvs : List (String × Json)) :
    ∀ (l2 : List (String × Json)),
      (∀ kv2 ∈ l2, TemplateEngine.MemberFrom fk kvs kv2) →
      TemplateEngine.SameShapeMembers fk kvs l2 := by
  intro l2
  induction l2 with
  | nil => intro _; exact TemplateEngine.SameShapeMembers.nil kvs
  | cons kv2 rest ih =>
      intro hall
      exact TemplateEngine.SameShapeMembers.cons kvs kv2 rest
        (hall kv2 (List.mem_cons_self kv2 rest))
        (ih (fun y hy => hall y (List.mem_cons_of_mem kv2 hy)))

/-- C9: `process` is structure-preserving on every input tree: scalars
(numbers, booleans, null) come back unchanged, strings stay strings, a
sequence yields a sequence of the same length with its elements
processed in order, and every member of an output mapping is the
processed image (key and value) of an input member. -/
theorem process_structure_preserving :
    ∀ (fk : Faker) (j : Json) (ctr : Nat),
      TemplateEngine.SameShape fk j (TemplateEngine.process fk ctr j).1 := by
  intro fk j
  induction j using Json.indOn with
  | hnull => intro ctr; exact TemplateEngine.SameShape.null
  | hbool b => intro ctr; exact TemplateEngine.SameShape.bool b
  | hnum q => intro ctr; exact TemplateEngine.SameShape.num q
  | hstr s => intro ctr; exact TemplateEngine.SameShape.str s _
  | harr l ih =>
      intro ctr
      simp only [TemplateEngine.process]
      exact TemplateEngine.SameShape.arr l _
        (TemplateEngine.processArray_sameShapeList fk l ctr ih)
  | hobj kvs ih =>
      intro ctr
      simp only [TemplateEngine.process]
      refine TemplateEngine.SameShape.obj kvs _
        (TemplateEngine.membersFrom_of_forall fk kvs _ ?_)
      intro kv2 hmem
      rcases TemplateEngine.processObject_provenance fk kvs ctr [] ih kv2 hmem
        with hacc | hgood
      · simp at hacc
      · exact hgood
